import Mathlib

/-!
Shallow embedding of the `GroupService` class of this repository
(`src/frontend/src/themes/themeStyles.ts`, lines 189-429) together with a
spec-modelled state for its three store collaborators (`IGroupStore`,
`IEventStore`, `IAccountStore`), whose implementations are not part of the
shown sources.  JavaScript numbers used as identifiers are modelled as `Nat`,
optional numeric fields as `Option Nat` (with JS truthiness made explicit),
strings as `String`, thrown errors as an `Except` error component, and the
mutable store as an explicit `Stores` record threaded through each method.
-/

namespace GroupService

/-- A user account (`IUser`), as far as the service inspects it: an `id` and
opaque remaining data (modelled by `name`). -/
structure IUser where
  id : Nat
  name : String
deriving DecidableEq, Repr

/-- A stored group (`IGroup`): identity, unique `name`, optional root role. -/
structure IGroup where
  id : Nat
  name : String
  rootRole : Option Nat
deriving DecidableEq, Repr

/-- A group/user membership row (`IGroupUser`) with provenance.  `createdBy`
is optional because `syncExternalGroups` may run without an actor. -/
structure IGroupUser where
  groupId : Nat
  userId : Nat
  joinedAt : Nat
  createdBy : Option String
deriving DecidableEq, Repr

/-- A group/project association (`IGroupProject`). -/
structure IGroupProject where
  groupId : Nat
  project : String
deriving DecidableEq, Repr

/-- A group/project-role association (`IGroupRole`). -/
structure IGroupRole where
  groupId : Nat
  roleId : Nat
  project : String
  createdAt : Nat
deriving DecidableEq, Repr

/-- One entry of the `users` field of an `IGroupModel`: a resolved user plus
the membership row's provenance. -/
structure IGroupUserModel where
  user : IUser
  joinedAt : Nat
  createdBy : Option String
deriving DecidableEq, Repr

/-- `IGroupModel`: a group annotated with resolved members and projects. -/
structure IGroupModel where
  id : Nat
  name : String
  rootRole : Option Nat
  users : List IGroupUserModel
  projects : List String
deriving DecidableEq, Repr

/-- `IGroupModelWithProjectRole`: a group model plus its role association. -/
structure IGroupModelWithProjectRole where
  model : IGroupModel
  roleId : Nat
  addedAt : Nat
deriving DecidableEq, Repr

/-- One entry of the `users` list of an `ICreateGroupModel`. -/
structure ICreateGroupUserModel where
  user : IUser
deriving DecidableEq, Repr

/-- `ICreateGroupModel`: the caller-supplied group payload.  `id` is absent
for creation and present for updates, hence `Option Nat`. -/
structure ICreateGroupModel where
  id : Option Nat
  name : String
  rootRole : Option Nat
  users : List ICreateGroupUserModel
deriving DecidableEq, Repr

/-- The two event types the service emits. -/
inductive GEventType where
  | GROUP_CREATED
  | GROUP_UPDATED
deriving DecidableEq, Repr

/-- Payload of an emitted event: the creation event carries the input model,
the update event carries the new group and the prior group (`preData`). -/
inductive GEventData where
  | createData (input : ICreateGroupModel)
  | updateData (newGroup : IGroup) (preData : IGroup)
deriving DecidableEq, Repr

/-- An event-store record. -/
structure GEvent where
  type : GEventType
  createdBy : String
  data : GEventData
deriving DecidableEq, Repr

/-- The combined state of the three injected stores.  Modelled from the spec:
the group store holds groups, membership rows, project associations and role
associations; the account store holds user accounts; the event store is an
append-only list; `nextId` models the store's id assignment on `create`. -/
structure Stores where
  groups : List IGroup
  groupUsers : List IGroupUser
  groupProjects : List IGroupProject
  groupRoles : List IGroupRole
  accounts : List IUser
  events : List GEvent
  nextId : Nat
deriving DecidableEq, Repr

/-- The errors the service raises (`BadDataError`, `NameExistsError`) plus
the store-originated not-found error surfaced by `groupStore.get`. -/
inductive SvcError where
  | badData (msg : String)
  | nameExists (msg : String)
  | notFound (msg : String)
deriving DecidableEq, Repr

/-- JS truthiness of an optional number (`undefined`, `null` and `0` are
falsy). -/
def truthy : Option Nat → Bool
  | some n => n != 0
  | none => false

/-- Modelled from the spec: `groupStore.existsWithName(name)`, the name
existence check used by validation. -/
def existsWithName (st : Stores) (name : String) : Bool :=
  st.groups.any (fun g => g.name == name)

/-- Modelled from the spec: `groupStore.hasProjectRole(groupId)`, whether the
store records a project role association for the group. -/
def hasProjectRole (st : Stores) (groupId : Nat) : Bool :=
  st.groupRoles.any (fun r => r.groupId == groupId)

/-- Modelled from the spec: `groupStore.getAllUsersByGroups(groupIds)`, the
membership rows whose `groupId` is among the given ids. -/
def getAllUsersByGroups (st : Stores) (groupIds : List Nat) : List IGroupUser :=
  st.groupUsers.filter (fun r => groupIds.contains r.groupId)

/-- Modelled from the spec: `accountStore.getAllWithId(userIds)`, bulk user
lookup by id list. -/
def accountGetAllWithId (st : Stores) (userIds : List Nat) : List IUser :=
  st.accounts.filter (fun u => userIds.contains u.id)

/-- Modelled from the spec: `groupStore.getGroupProjects(groupIds)`, the
group/project associations for the given group ids. -/
def getGroupProjects (st : Stores) (groupIds : List Nat) : List IGroupProject :=
  st.groupProjects.filter (fun p => groupIds.contains p.groupId)

/-- Modelled from the spec: `groupStore.getProjectGroupRoles(projectId?)`,
role associations optionally filtered by project. -/
def getProjectGroupRoles (st : Stores) (projectId : Option String) : List IGroupRole :=
  match projectId with
  | some p => st.groupRoles.filter (fun r => r.project == p)
  | none => st.groupRoles

/-- Modelled from the spec: `groupStore.getAllWithId(groupIds)`, the stored
groups whose id is among the given ids. -/
def groupsGetAllWithId (st : Stores) (groupIds : List Nat) : List IGroup :=
  st.groups.filter (fun g => groupIds.contains g.id)

/-- Modelled from the spec: `groupStore.create(group)` persists a new group
under a store-assigned id and returns it. -/
def storeCreate (st : Stores) (group : ICreateGroupModel) : IGroup × Stores :=
  let g : IGroup := { id := st.nextId, name := group.name, rootRole := group.rootRole }
  (g, { st with groups := st.groups ++ [g], nextId := st.nextId + 1 })

/-- Modelled from the spec: `groupStore.update(group)` overwrites the stored
group carrying `gid` with the payload's fields and returns the result. -/
def storeUpdate (st : Stores) (gid : Nat) (group : ICreateGroupModel) : IGroup × Stores :=
  let g : IGroup := { id := gid, name := group.name, rootRole := group.rootRole }
  (g, { st with groups := st.groups.map (fun old => if old.id == gid then g else old) })

/-- Modelled from the spec: `groupStore.addUsersToGroup(groupId, users, actor)`
adds one membership row per supplied user, attributed to the actor; `now`
models the row's `joinedAt` timestamp. -/
def addUsersToGroup (st : Stores) (groupId : Nat) (users : List ICreateGroupUserModel)
    (userName : String) (now : Nat) : Stores :=
  { st with groupUsers := st.groupUsers ++
      users.map (fun u => { groupId := groupId, userId := u.user.id,
                            joinedAt := now, createdBy := some userName }) }

/-- Modelled from the spec: `groupStore.updateGroupUsers(groupId, newUsers,
deletableUsers, actor)` removes the deletable rows and adds one row per new
user. -/
def updateGroupUsers (st : Stores) (groupId : Nat) (newUsers : List ICreateGroupUserModel)
    (deletableUsers : List IGroupUser) (userName : String) (now : Nat) : Stores :=
  { st with groupUsers :=
      (st.groupUsers.filter (fun r => !deletableUsers.contains r)) ++
      newUsers.map (fun u => { groupId := groupId, userId := u.user.id,
                               joinedAt := now, createdBy := some userName }) }

/-- Modelled from the spec: `eventStore.store(event)` appends to the log. -/
def storeEvent (st : Stores) (e : GEvent) : Stores :=
  { st with events := st.events ++ [e] }

/-- `GroupService.validateGroup(group, existingGroup?)`: empty-name check,
name-collision check (skipped when updating without renaming), and the
root-role/project-role conflict check (guarded on a truthy `group.id` and a
truthy `group.rootRole`). -/
def validateGroup (st : Stores) (group : ICreateGroupModel)
    (existingGroup : Option IGroup) : Except SvcError Unit :=
  if group.name == "" then
    .error (.badData "Group name cannot be empty")
  else if (match existingGroup with
           | none => true
           | some eg => eg.name != group.name) &&
          existsWithName st group.name then
    .error (.nameExists "Group name already exists")
  else if truthy group.id && truthy group.rootRole &&
          hasProjectRole st (group.id.getD 0) then
    .error (.badData "This group already has a project role and cannot also be given a root role")
  else
    .ok ()

/-- `GroupService.createGroup(group, userName)`: validate, persist the group,
add the supplied users, record a creation event.  The returned store state is
the input state whenever an error is raised. -/
def createGroup (st : Stores) (group : ICreateGroupModel) (userName : String)
    (now : Nat) : Except SvcError IGroup × Stores :=
  match validateGroup st group none with
  | .error e => (.error e, st)
  | .ok () =>
    let (newGroup, st1) := storeCreate st group
    let st2 := addUsersToGroup st1 newGroup.id group.users userName now
    let st3 := storeEvent st2 { type := .GROUP_CREATED, createdBy := userName,
                                data := .createData group }
    (.ok newGroup, st3)

/-- `GroupService.updateGroup(group, userName)`: load prior state, validate
against it, persist the update, compute the membership diff against the
existing rows (additions are desired users not already members, deletable
rows are existing rows whose user is no longer desired), apply it, record an
update event.  `groupStore.get` on a missing or absent id surfaces the
store's not-found error; the returned store state is the input state on any
error. -/
def updateGroup (st : Stores) (group : ICreateGroupModel) (userName : String)
    (now : Nat) : Except SvcError IGroup × Stores :=
  match group.id with
  | none => (.error (.notFound "No group found"), st)
  | some gid =>
    match st.groups.find? (fun g => g.id == gid) with
    | none => (.error (.notFound "No group found"), st)
    | some preData =>
      match validateGroup st group (some preData) with
      | .error e => (.error e, st)
      | .ok () =>
        let (newGroup, st1) := storeUpdate st gid group
        let existingUsers := getAllUsersByGroups st1 [gid]
        let existingUserIds := existingUsers.map (fun r => r.userId)
        let deletableUsers := existingUsers.filter (fun existingUser =>
          !group.users.any (fun groupUser => groupUser.user.id == existingUser.userId))
        let st2 := updateGroupUsers st1 newGroup.id
          (group.users.filter (fun u => !existingUserIds.contains u.user.id))
          deletableUsers userName now
        let st3 := storeEvent st2 { type := .GROUP_UPDATED, createdBy := userName,
                                    data := .updateData newGroup preData }
        (.ok newGroup, st3)

/-- `GroupService.mapGroupWithUsers(group, allGroupUsers, allUsers)`: select
this group's membership rows, resolve each referenced user, and attach the
row's provenance (`find` on the rows cannot fail for a selected user; the
unreachable branch carries a dummy row). -/
def mapGroupWithUsers (group : IGroup) (allGroupUsers : List IGroupUser)
    (allUsers : List IUser) : IGroupModel :=
  let groupUsers := allGroupUsers.filter (fun r => r.groupId == group.id)
  let groupUsersId := groupUsers.map (fun r => r.userId)
  let selectedUsers := allUsers.filter (fun u => groupUsersId.contains u.id)
  let finalUsers := selectedUsers.map (fun u =>
    let roleUser := (groupUsers.find? (fun gu => gu.userId == u.id)).getD
      { groupId := 0, userId := 0, joinedAt := 0, createdBy := none }
    { user := u, joinedAt := roleUser.joinedAt, createdBy := roleUser.createdBy })
  { id := group.id, name := group.name, rootRole := group.rootRole,
    users := finalUsers, projects := [] }

/-- `GroupService.mapGroupWithProjects(groupProjects, group)`: attach the
project ids of the associations carrying this group's id. -/
def mapGroupWithProjects (groupProjects : List IGroupProject)
    (group : IGroupModel) : IGroupModel :=
  { group with projects :=
      (groupProjects.filter (fun p => p.groupId == group.id)).map (fun p => p.project) }

/-- `GroupService.getAll()`: fetch all groups, their membership rows, the
referenced accounts and the project associations, and assemble one
`IGroupModel` per group in the store's listing order. -/
def getAll (st : Stores) : List IGroupModel :=
  let groups := st.groups
  let allGroupUsers := getAllUsersByGroups st (groups.map (fun g => g.id))
  let users := accountGetAllWithId st (allGroupUsers.map (fun r => r.userId))
  let groupProjects := getGroupProjects st (groups.map (fun g => g.id))
  groups.map (fun group =>
    mapGroupWithProjects groupProjects (mapGroupWithUsers group allGroupUsers users))

/-- `GroupService.getProjectGroups(projectId?)`: when role associations
exist, resolve their groups and members and attach `roleId`/`addedAt` per
group (the `find` cannot fail for a resolved group; the unreachable branch
carries a dummy association); otherwise return the empty list. -/
def getProjectGroups (st : Stores) (projectId : Option String) :
    List IGroupModelWithProjectRole :=
  let groupRoles := getProjectGroupRoles st projectId
  if groupRoles.length > 0 then
    let groups := groupsGetAllWithId st (groupRoles.map (fun a => a.groupId))
    let groupUsers := getAllUsersByGroups st (groups.map (fun g => g.id))
    let users := accountGetAllWithId st (groupUsers.map (fun r => r.userId))
    groups.map (fun group =>
      let groupRole := (groupRoles.find? (fun g => g.groupId == group.id)).getD
        { groupId := 0, roleId := 0, project := "", createdAt := 0 }
      { model := mapGroupWithUsers group groupUsers users,
        roleId := groupRole.roleId, addedAt := groupRole.createdAt })
  else []

/-- Whether the store records a membership row for the user in the group. -/
def isMember (st : Stores) (userId groupId : Nat) : Bool :=
  st.groupUsers.any (fun r => r.groupId == groupId && r.userId == userId)

/-- Modelled from the spec: `groupStore.getNewGroupsForExternalUser(userId,
externalGroups)`, the groups implied by the external name list that the user
is not currently associated with. -/
def getNewGroupsForExternalUser (st : Stores) (userId : Nat)
    (externalGroups : List String) : List IGroup :=
  st.groups.filter (fun g =>
    externalGroups.contains g.name && !isMember st userId g.id)

/-- Modelled from the spec: `groupStore.addUserToGroups(userId, groupIds,
createdBy?)`, adding one membership row per group id; `now` models the
row's `joinedAt` timestamp. -/
def addUserToGroups (st : Stores) (userId : Nat) (groupIds : List Nat)
    (createdBy : Option String) (now : Nat) : Stores :=
  { st with groupUsers := st.groupUsers ++
      groupIds.map (fun gid => { groupId := gid, userId := userId,
                                 joinedAt := now, createdBy := createdBy }) }

/-- Whether the stored group carrying `gid` exists and is no longer implied
by the external name list. -/
def groupGone (G : List IGroup) (externalGroups : List String) (gid : Nat) : Bool :=
  match G.find? (fun g => g.id == gid) with
  | some g => !externalGroups.contains g.name
  | none => false

/-- Modelled from the spec: `groupStore.getOldGroupsForExternalUser(userId,
externalGroups)`, the user's membership rows whose group is no longer
implied by the external name list. -/
def getOldGroupsForExternalUser (st : Stores) (userId : Nat)
    (externalGroups : List String) : List IGroupUser :=
  st.groupUsers.filter (fun r =>
    r.userId == userId && groupGone st.groups externalGroups r.groupId)

/-- Modelled from the spec: `groupStore.deleteUsersFromGroup(rows)`, removing
the given membership rows. -/
def deleteUsersFromGroup (st : Stores) (rows : List IGroupUser) : Stores :=
  { st with groupUsers := st.groupUsers.filter (fun r => !rows.contains r) }

/-- The runtime value passed for the `externalGroups: string[]` parameter of
`syncExternalGroups`: either an actual array or any non-array value, which
`Array.isArray` rejects. -/
inductive ExternalGroupsArg where
  | arr (names : List String)
  | notArray
deriving DecidableEq, Repr

/-- `GroupService.syncExternalGroups(userId, externalGroups, createdBy?)`:
guarded by `Array.isArray`; adds the user to the newly implied groups, then
removes the user from the no-longer-implied groups. -/
def syncExternalGroups (st : Stores) (userId : Nat)
    (externalGroups : ExternalGroupsArg) (createdBy : Option String)
    (now : Nat) : Stores :=
  match externalGroups with
  | .notArray => st
  | .arr names =>
    let newGroups := getNewGroupsForExternalUser st userId names
    let st1 := addUserToGroups st userId (newGroups.map (fun g => g.id)) createdBy now
    let oldGroups := getOldGroupsForExternalUser st1 userId names
    deleteUsersFromGroup st1 oldGroups

/-! ### Concrete fixtures used by the witness theorems -/

/-- A stored group used by the witnesses. -/
def exGroupA : IGroup := { id := 1, name := "devs", rootRole := none }

/-- A store holding one group and nothing else. -/
def exStores : Stores :=
  { groups := [exGroupA], groupUsers := [], groupProjects := [], groupRoles := [],
    accounts := [], events := [], nextId := 2 }

/-- A store holding one group that has a project role on record. -/
def exStoresRole : Stores :=
  { exStores with groupRoles := [{ groupId := 1, roleId := 5, project := "p", createdAt := 0 }] }

/-- An update payload carrying a root role for `exGroupA`. -/
def exRootPayload : ICreateGroupModel :=
  { id := some 1, name := "devs", rootRole := some 7, users := [] }

/-! ### Theorems for the claims -/

/-- Helper for the conflict-guard claims: the root-role/project-role conflict
error requires a truthy `group.id`. -/
theorem validateGroup_conflict_needs_truthy_id (st : Stores)
    (group : ICreateGroupModel) (ex : Option IGroup)
    (hid : truthy group.id = false) :
    validateGroup st group ex ≠
      .error (.badData "This group already has a project role and cannot also be given a root role") := by
  unfold validateGroup
  split
  · intro hcontra
    simp at hcontra
  · split
    · intro hcontra
      simp at hcontra
    · split
      · rename_i hcond
        rw [hid] at hcond
        simp at hcond
      · intro hcontra
        simp at hcontra

/-- C9: `syncExternalGroups` with a non-array `externalGroups` argument is a
no-op: the store state is returned unchanged, with no reads or writes. -/
theorem syncExternalGroups_notArray_noop (st : Stores) (userId : Nat)
    (createdBy : Option String) (now : Nat) :
    syncExternalGroups st userId .notArray createdBy now = st := rfl

/-- C4: `createGroup` on an input with an empty name fails with the
data-validation error, whatever the other fields and the store state, and
leaves the store untouched. -/
theorem createGroup_empty_name_fails (st : Stores) (group : ICreateGroupModel)
    (userName : String) (now : Nat) (h : group.name = "") :
    createGroup st group userName now =
      (.error (.badData "Group name cannot be empty"), st) := by
  simp [createGroup, validateGroup, h]

/-- Witness for C4 at a concrete store and payload. -/
theorem createGroup_empty_name_fails_witness :
    createGroup exStores { id := none, name := "", rootRole := some 3, users := [] }
        "admin" 0 =
      (.error (.badData "Group name cannot be empty"), exStores) :=
  createGroup_empty_name_fails _ _ _ _ rfl

/-- C3: whenever `createGroup` or `updateGroup` fails with a locally raised
error, the error is raised before any persistence write: the returned store
state equals the input store state. -/
theorem validation_failure_is_atomic (st : Stores) (group : ICreateGroupModel)
    (userName : String) (now : Nat) :
    (∀ e st1, createGroup st group userName now = (.error e, st1) → st1 = st) ∧
    (∀ e st2, updateGroup st group userName now = (.error e, st2) → st2 = st) := by
  constructor
  · intro e st1 h
    cases hv : validateGroup st group none with
    | error e0 =>
      simp [createGroup, hv] at h
      exact h.2.symm
    | ok u =>
      cases u
      simp [createGroup, hv] at h
  · intro e st2 h
    cases hid : group.id with
    | none =>
      simp [updateGroup, hid] at h
      exact h.2.symm
    | some gid =>
      cases hf : st.groups.find? (fun g => g.id == gid) with
      | none =>
        simp [updateGroup, hid, hf] at h
        exact h.2.symm
      | some preData =>
        cases hv : validateGroup st group (some preData) with
        | error e0 =>
          simp [updateGroup, hid, hf, hv] at h
          exact h.2.symm
        | ok u =>
          cases u
          simp [updateGroup, hid, hf, hv] at h

/-- Witness for C3: an empty-name payload fails both operations on a concrete
store and leaves it unchanged. -/
theorem validation_failure_is_atomic_witness :
    (createGroup exStores { id := some 1, name := "", rootRole := none, users := [] }
        "admin" 7).2 = exStores ∧
    (updateGroup exStores { id := some 1, name := "", rootRole := none, users := [] }
        "admin" 7).2 = exStores := by
  have h := validation_failure_is_atomic exStores
    { id := some 1, name := "", rootRole := none, users := [] } "admin" 7
  exact ⟨h.1 (.badData "Group name cannot be empty") _ rfl,
         h.2 (.badData "Group name cannot be empty") _ rfl⟩

/-- C8: when the store reports no group-role associations for the query,
`getProjectGroups` returns the empty list (and, being total, raises no
error). -/
theorem getProjectGroups_no_roles_empty (st : Stores) (projectId : Option String)
    (h : getProjectGroupRoles st projectId = []) :
    getProjectGroups st projectId = [] := by
  unfold getProjectGroups
  simp [h]

/-- Witness for C8 on a concrete store with no role associations. -/
theorem getProjectGroups_no_roles_empty_witness :
    getProjectGroupRoles exStores none = [] ∧ getProjectGroups exStores none = [] :=
  ⟨rfl, getProjectGroups_no_roles_empty exStores none rfl⟩

/-- C10: when the input's `id` is absent or falsy — as for every creation
payload — validation never raises the root-role/project-role conflict error,
even if a root role is set and the store records a project role; in
particular `createGroup` never fails with that error on such input. -/
theorem conflict_check_requires_update_id (st : Stores) (group : ICreateGroupModel)
    (ex : Option IGroup) (userName : String) (now : Nat)
    (hid : truthy group.id = false) :
    validateGroup st group ex ≠
      .error (.badData "This group already has a project role and cannot also be given a root role") ∧
    (createGroup st group userName now).1 ≠
      .error (.badData "This group already has a project role and cannot also be given a root role") := by
  refine ⟨validateGroup_conflict_needs_truthy_id st group ex hid, ?_⟩
  cases hv : validateGroup st group none with
  | error e0 =>
    simp [createGroup, hv]
    intro hcontra
    exact validateGroup_conflict_needs_truthy_id st group none hid (hcontra ▸ hv)
  | ok u =>
    cases u
    simp [createGroup, hv]

/-- Witness for C10: an id-less payload with a root role, against a store
recording a project role for the name-matching group. -/
theorem conflict_check_requires_update_id_witness :
    validateGroup exStoresRole { id := none, name := "ops", rootRole := some 7, users := [] }
        (some exGroupA) ≠
      .error (.badData "This group already has a project role and cannot also be given a root role") ∧
    (createGroup exStoresRole { id := none, name := "ops", rootRole := some 7, users := [] }
        "admin" 2).1 ≠
      .error (.badData "This group already has a project role and cannot also be given a root role") :=
  conflict_check_requires_update_id exStoresRole
    { id := none, name := "ops", rootRole := some 7, users := [] }
    (some exGroupA) "admin" 2 rfl

/-- Helper: validating an update that keeps the stored group's name never
yields the name-collision error, because the existence check is skipped. -/
theorem validateGroup_same_name_no_collision (st : Stores)
    (group : ICreateGroupModel) (ex : IGroup) (hexname : ex.name = group.name)
    (s : String) :
    validateGroup st group (some ex) ≠ .error (.nameExists s) := by
  unfold validateGroup
  split
  · intro h
    simp at h
  · split
    · rename_i hcond
      simp [hexname] at hcond
    · split
      · intro h
        simp at h
      · intro h
        simp at h

/-- C5: creating a group under a name an existing group already holds fails
with the name-collision error, while updating a group without changing its
name skips the existence check and can never raise the name-collision
error. -/
theorem name_collision_semantics (st : Stores) (group : ICreateGroupModel)
    (userName : String) (now : Nat) (hname : group.name ≠ "") :
    ((∃ g0 ∈ st.groups, g0.name = group.name) →
      (createGroup st group userName now).1 =
        .error (.nameExists "Group name already exists")) ∧
    (∀ gid ex, group.id = some gid →
      st.groups.find? (fun g => g.id == gid) = some ex →
      ex.name = group.name →
      ∀ s, (updateGroup st group userName now).1 ≠ .error (.nameExists s)) := by
  constructor
  · rintro ⟨g0, hg0, hg0name⟩
    have hex : existsWithName st group.name = true := by
      simp only [existsWithName, List.any_eq_true]
      exact ⟨g0, hg0, by simp [hg0name]⟩
    simp [createGroup, validateGroup, hname, hex]
  · intro gid ex hid hfind hexname s
    cases hv : validateGroup st group (some ex) with
    | error e0 =>
      have hne := validateGroup_same_name_no_collision st group ex hexname s
      rw [hv] at hne
      simpa [updateGroup, hid, hfind, hv] using hne
    | ok u =>
      cases u
      simp [updateGroup, hid, hfind, hv]

/-- Witness for C5: duplicating the name `devs` fails creation with the
collision error, while a same-name update of the `devs` group cannot fail
with it. -/
theorem name_collision_semantics_witness :
    (createGroup exStores { id := some 1, name := "devs", rootRole := none, users := [] }
        "admin" 3).1 = .error (.nameExists "Group name already exists") ∧
    (updateGroup exStores { id := some 1, name := "devs", rootRole := none, users := [] }
        "admin" 3).1 ≠ .error (.nameExists "Group name already exists") := by
  have h := name_collision_semantics exStores
    { id := some 1, name := "devs", rootRole := none, users := [] } "admin" 3 (by decide)
  exact ⟨h.1 ⟨exGroupA, by decide, rfl⟩, h.2 1 exGroupA rfl rfl rfl _⟩

/-- C6: an update that sets a root role on a group recorded as holding a
project role fails with the data-validation error; the same update against a
store recording no project role for the group passes validation. -/
theorem update_rootRole_conflict (st : Stores) (group : ICreateGroupModel)
    (userName : String) (now : Nat) (gid : Nat) (ex : IGroup)
    (hname : group.name ≠ "") (hid : group.id = some gid)
    (hfind : st.groups.find? (fun g => g.id == gid) = some ex)
    (hexname : ex.name = group.name)
    (hgid : gid ≠ 0) (hroot : truthy group.rootRole = true) :
    (hasProjectRole st gid = true →
      (updateGroup st group userName now).1 =
        .error (.badData "This group already has a project role and cannot also be given a root role")) ∧
    (hasProjectRole st gid = false →
      validateGroup st group (some ex) = .ok ()) := by
  have htid : truthy (some gid) = true := by simp [truthy, hgid]
  constructor
  · intro hrole
    have hv : validateGroup st group (some ex) =
        .error (.badData "This group already has a project role and cannot also be given a root role") := by
      simp [validateGroup, hname, hexname, hid, htid, hroot, hrole]
    simp [updateGroup, hid, hfind, hv]
  · intro hrole
    simp [validateGroup, hname, hexname, hid, htid, hroot, hrole]

/-- Witness for C6: the same root-role update fails against the store that
records a project role for the group and validates against the store that
records none. -/
theorem update_rootRole_conflict_witness :
    (updateGroup exStoresRole exRootPayload "admin" 4).1 =
      .error (.badData "This group already has a project role and cannot also be given a root role") ∧
    validateGroup exStores exRootPayload (some exGroupA) = .ok () := by
  refine ⟨?_, ?_⟩
  · exact (update_rootRole_conflict exStoresRole exRootPayload "admin" 4 1 exGroupA
      (by decide) rfl rfl rfl (by decide) rfl).1 rfl
  · exact (update_rootRole_conflict exStores exRootPayload "admin" 4 1 exGroupA
      (by decide) rfl rfl rfl (by decide) rfl).2 rfl

/-- Helper for C1: membership in the row list produced by the update diff
(surviving rows appended with the rows of the newly added users),
characterised against the original rows `E` and the desired list `D`. -/
theorem mem_updateDiff (E : List IGroupUser) (D : List ICreateGroupUserModel)
    (gid : Nat) (userName : String) (now : Nat) (r : IGroupUser) :
    (r ∈ (E.filter (fun r0 =>
        !((E.filter (fun r2 => [gid].contains r2.groupId)).filter
            (fun eu => !D.any (fun gu => gu.user.id == eu.userId))).contains r0)) ++
      (D.filter (fun u =>
        !((E.filter (fun r2 => [gid].contains r2.groupId)).map
            (fun r2 => r2.userId)).contains u.user.id)).map
        (fun u => ({ groupId := gid, userId := u.user.id, joinedAt := now,
                     createdBy := some userName } : IGroupUser))) ↔
    ((r ∈ E ∧ ¬(r.groupId = gid ∧ ∀ u ∈ D, u.user.id ≠ r.userId)) ∨
     (∃ u ∈ D, r = { groupId := gid, userId := u.user.id, joinedAt := now,
                     createdBy := some userName } ∧
        ∀ r0 ∈ E, r0.groupId = gid → r0.userId ≠ u.user.id)) := by
  simp [List.mem_filter, List.any_eq_true, List.elem_iff]
  constructor
  · rintro (⟨hE, hrest⟩ | ⟨a, ⟨haD, hnone⟩, heq⟩)
    · rcases hrest with hnE | hsome | hng
      · exact absurd hE hnE
      · exact Or.inl ⟨hE, fun _ => hsome⟩
      · exact Or.inl ⟨hE, fun hg => absurd hg hng⟩
    · exact Or.inr ⟨a, haD, heq.symm, hnone⟩
  · rintro (⟨hE, himpl⟩ | ⟨u, huD, heq, hnone⟩)
    · by_cases hg : r.groupId = gid
      · exact Or.inl ⟨hE, Or.inr (Or.inl (himpl hg))⟩
      · exact Or.inl ⟨hE, Or.inr (Or.inr hg)⟩
    · exact Or.inr ⟨u, ⟨huD, hnone⟩, heq.symm⟩

/-- C1: a successful `updateGroup` applies exactly the membership diff: every
desired user not already a member gains a fresh row, every row whose user is
no longer desired is removed, rows of still-desired users and rows of other
groups are untouched, and nothing else changes in the membership table. -/
theorem updateGroup_membership_diff (st : Stores) (group : ICreateGroupModel)
    (userName : String) (now : Nat) (gid : Nat) (ng : IGroup) (st2 : Stores)
    (hid : group.id = some gid)
    (h : updateGroup st group userName now = (.ok ng, st2)) :
    (∀ uid, (∃ u ∈ group.users, u.user.id = uid) →
       (∀ r ∈ st.groupUsers, r.groupId = gid → r.userId ≠ uid) →
       ({ groupId := gid, userId := uid, joinedAt := now,
          createdBy := some userName } : IGroupUser) ∈ st2.groupUsers) ∧
    (∀ r ∈ st2.groupUsers, r ∉ st.groupUsers →
       r.groupId = gid ∧ (∃ u ∈ group.users, u.user.id = r.userId) ∧
       (∀ r0 ∈ st.groupUsers, r0.groupId = gid → r0.userId ≠ r.userId) ∧
       r.joinedAt = now ∧ r.createdBy = some userName) ∧
    (∀ r ∈ st.groupUsers, r.groupId = gid →
       (∀ u ∈ group.users, u.user.id ≠ r.userId) → r ∉ st2.groupUsers) ∧
    (∀ r ∈ st.groupUsers, r ∉ st2.groupUsers →
       r.groupId = gid ∧ ∀ u ∈ group.users, u.user.id ≠ r.userId) ∧
    (∀ r ∈ st.groupUsers, (r.groupId = gid → ∃ u ∈ group.users, u.user.id = r.userId) →
       r ∈ st2.groupUsers) := by
  cases hf : st.groups.find? (fun g => g.id == gid) with
  | none => simp [updateGroup, hid, hf] at h
  | some preData =>
    cases hv : validateGroup st group (some preData) with
    | error e0 => simp [updateGroup, hid, hf, hv] at h
    | ok u =>
      cases u
      simp only [updateGroup, hid, hf, hv] at h
      rw [Prod.mk.injEq] at h
      obtain ⟨hok, hstate⟩ := h
      subst hstate
      simp only [storeEvent, updateGroupUsers, getAllUsersByGroups, storeUpdate,
        mem_updateDiff]
      refine ⟨?_, ?_, ?_, ?_, ?_⟩
      · rintro uid ⟨u, huD, huid⟩ hnew
        exact Or.inr ⟨u, huD, by rw [huid],
          fun r0 hr0 hg hcon => hnew r0 hr0 hg (hcon.trans huid)⟩
      · rintro r (⟨hrE, -⟩ | ⟨u, huD, heq, hno⟩) hnotE
        · exact absurd hrE hnotE
        · subst heq
          exact ⟨rfl, ⟨u, huD, rfl⟩, hno, rfl, rfl⟩
      · rintro r hrE hg hno (⟨-, hcon⟩ | ⟨u, huD, heq, -⟩)
        · exact hcon ⟨hg, hno⟩
        · exact hno u huD (congrArg IGroupUser.userId heq).symm
      · intro r hrE hnot
        by_cases hq : r.groupId = gid ∧ ∀ u ∈ group.users, u.user.id ≠ r.userId
        · exact hq
        · exact absurd (Or.inl ⟨hrE, hq⟩) hnot
      · intro r hrE himp
        refine Or.inl ⟨hrE, fun hc => ?_⟩
        obtain ⟨u, huD, hu⟩ := himp hc.1
        exact hc.2 u huD hu

/-- Store fixture for the C1 witness: group 1 with members A, B, C. -/
def exStC1 : Stores :=
  { groups := [{ id := 1, name := "devs", rootRole := none }],
    groupUsers := [{ groupId := 1, userId := 1, joinedAt := 10, createdBy := some "x" },
                   { groupId := 1, userId := 2, joinedAt := 11, createdBy := some "x" },
                   { groupId := 1, userId := 3, joinedAt := 12, createdBy := some "x" }],
    groupProjects := [], groupRoles := [],
    accounts := [⟨1, "A"⟩, ⟨2, "B"⟩, ⟨3, "C"⟩, ⟨4, "D"⟩],
    events := [], nextId := 2 }

/-- Update payload for the C1 witness: desired members B, C, D. -/
def exPayC1 : ICreateGroupModel :=
  { id := some 1, name := "devs", rootRole := none,
    users := [⟨⟨2, "B"⟩⟩, ⟨⟨3, "C"⟩⟩, ⟨⟨4, "D"⟩⟩] }

/-- Witness for C1 on existing members {A,B,C} and desired {B,C,D}: D's row
is added, A's row is removed, and B's row is untouched. -/
theorem updateGroup_membership_diff_witness :
    ({ groupId := 1, userId := 4, joinedAt := 20, createdBy := some "admin" } : IGroupUser) ∈
      (updateGroup exStC1 exPayC1 "admin" 20).2.groupUsers ∧
    ({ groupId := 1, userId := 1, joinedAt := 10, createdBy := some "x" } : IGroupUser) ∉
      (updateGroup exStC1 exPayC1 "admin" 20).2.groupUsers ∧
    ({ groupId := 1, userId := 2, joinedAt := 11, createdBy := some "x" } : IGroupUser) ∈
      (updateGroup exStC1 exPayC1 "admin" 20).2.groupUsers := by
  have h := updateGroup_membership_diff exStC1 exPayC1 "admin" 20 1
    { id := 1, name := "devs", rootRole := none }
    (updateGroup exStC1 exPayC1 "admin" 20).2 rfl rfl
  refine ⟨h.1 4 ⟨⟨⟨4, "D"⟩⟩, by decide, rfl⟩ (by decide), ?_, ?_⟩
  · exact h.2.2.1 { groupId := 1, userId := 1, joinedAt := 10, createdBy := some "x" }
      (by decide) rfl (by decide)
  · exact h.2.2.2.2 { groupId := 1, userId := 2, joinedAt := 11, createdBy := some "x" }
      (by decide) (fun _ => ⟨⟨⟨2, "B"⟩⟩, by decide, rfl⟩)

/-- Helper for C7: membership in the `users` list assembled by
`mapGroupWithUsers` from the bulk row fetch and bulk account resolution of
`getAll`, characterised against the store, assuming at most one membership
row per (group, user) pair. -/
theorem mem_mapGroupWithUsers_users (st : Stores) (gr : IGroup) (hgr : gr ∈ st.groups)
    (hU : ∀ r1 ∈ st.groupUsers, ∀ r2 ∈ st.groupUsers,
        r1.groupId = r2.groupId → r1.userId = r2.userId → r1 = r2)
    (um : IGroupUserModel) :
    (um ∈ (mapGroupWithUsers gr
        (getAllUsersByGroups st (st.groups.map (fun g => g.id)))
        (accountGetAllWithId st
          ((getAllUsersByGroups st (st.groups.map (fun g => g.id))).map
            (fun r => r.userId)))).users) ↔
    ∃ acct ∈ st.accounts, ∃ row ∈ st.groupUsers,
      row.groupId = gr.id ∧ row.userId = acct.id ∧
      um = { user := acct, joinedAt := row.joinedAt, createdBy := row.createdBy } := by
  simp only [mapGroupWithUsers, getAllUsersByGroups, accountGetAllWithId]
  simp [List.mem_map, List.mem_filter, List.elem_iff]
  constructor
  · rintro ⟨a, ⟨haAcc, ⟨row, ⟨hrM, hrG, -⟩, hrU⟩, -⟩, heq⟩
    have hsome : (List.find? (fun r =>
        decide (r.groupId = gr.id) && decide (∃ g ∈ st.groups, g.id = r.groupId) &&
          decide (r.userId = a.id)) st.groupUsers).isSome = true := by
      rw [List.find?_isSome]
      refine ⟨row, hrM, ?_⟩
      simp [hrG, hrU]
      exact ⟨gr, hgr, rfl⟩
    obtain ⟨row0, hfind⟩ := Option.isSome_iff_exists.mp hsome
    have hrow0M := List.mem_of_find?_eq_some hfind
    have hp := List.find?_some hfind
    simp at hp
    rw [hfind] at heq
    simp only [Option.getD_some] at heq
    exact ⟨a, haAcc, row0, hrow0M, hp.1.1, hp.2, heq.symm⟩
  · rintro ⟨acct, haAcc, row, hrM, hrG, hrU, heq⟩
    have hfind : List.find? (fun r =>
        decide (r.groupId = gr.id) && decide (∃ g ∈ st.groups, g.id = r.groupId) &&
          decide (r.userId = acct.id)) st.groupUsers = some row := by
      have hsome : (List.find? (fun r =>
          decide (r.groupId = gr.id) && decide (∃ g ∈ st.groups, g.id = r.groupId) &&
            decide (r.userId = acct.id)) st.groupUsers).isSome = true := by
        rw [List.find?_isSome]
        refine ⟨row, hrM, ?_⟩
        simp [hrG, hrU]
        exact ⟨gr, hgr, rfl⟩
      obtain ⟨row0, h0⟩ := Option.isSome_iff_exists.mp hsome
      have h0M := List.mem_of_find?_eq_some h0
      have h0p := List.find?_some h0
      simp at h0p
      have hrr : row0 = row :=
        hU row0 h0M row hrM (h0p.1.1.trans hrG.symm) (h0p.2.trans hrU.symm)
      rw [h0, hrr]
    refine ⟨acct, ⟨haAcc, ⟨row, ⟨hrM, hrG, ⟨gr, hgr, hrG.symm⟩⟩, hrU⟩,
      ⟨row, ⟨hrM, ⟨gr, hgr, hrG.symm⟩⟩, hrU⟩⟩, ?_⟩
    rw [hfind]
    simp only [Option.getD_some]
    exact heq.symm



/-- Helper for C7: the `projects` list assembled by `mapGroupWithProjects`
from the bulk association fetch of `getAll` is exactly the group's own
associations. -/
theorem mapGroupWithProjects_exact (st : Stores) (gr : IGroup) (hgr : gr ∈ st.groups)
    (m : IGroupModel) (hmid : m.id = gr.id) :
    (mapGroupWithProjects (getGroupProjects st (st.groups.map (fun g => g.id))) m).projects =
    (st.groupProjects.filter (fun p => p.groupId == gr.id)).map (fun p => p.project) := by
  simp only [mapGroupWithProjects, getGroupProjects, hmid]
  rw [List.filter_filter]
  congr 1
  apply List.filter_congr
  intro p hp
  cases hpg : p.groupId == gr.id with
  | false => simp [hpg]
  | true =>
    simp only [hpg, Bool.true_and]
    simp only [beq_iff_eq] at hpg
    simp [List.elem_iff, hpg]
    exact ⟨gr, hgr, rfl⟩

/-- C7: `getAll` returns one model per stored group in listing order, whose
`projects` are exactly the project ids of this group's associations and whose
`users` are exactly the resolved accounts of this group's membership rows with
that row's `joinedAt` and `createdBy`, assuming at most one membership row per
(group, user) pair. -/
theorem getAll_exact (st : Stores)
    (hU : ∀ r1 ∈ st.groupUsers, ∀ r2 ∈ st.groupUsers,
        r1.groupId = r2.groupId → r1.userId = r2.userId → r1 = r2) :
    (getAll st).length = st.groups.length ∧
    (∀ i (hi : i < (getAll st).length) (hg : i < st.groups.length),
      ((getAll st).get ⟨i, hi⟩).id = (st.groups.get ⟨i, hg⟩).id ∧
      ((getAll st).get ⟨i, hi⟩).name = (st.groups.get ⟨i, hg⟩).name ∧
      ((getAll st).get ⟨i, hi⟩).projects =
        (st.groupProjects.filter (fun p => p.groupId == (st.groups.get ⟨i, hg⟩).id)).map
          (fun p => p.project) ∧
      (∀ um, um ∈ ((getAll st).get ⟨i, hi⟩).users ↔
        ∃ acct ∈ st.accounts, ∃ row ∈ st.groupUsers,
          row.groupId = (st.groups.get ⟨i, hg⟩).id ∧ row.userId = acct.id ∧
          um = { user := acct, joinedAt := row.joinedAt, createdBy := row.createdBy })) := by
  have hlen : (getAll st).length = st.groups.length := by
    simp [getAll]
  refine ⟨hlen, ?_⟩
  intro i hi hg
  have hget : (getAll st).get ⟨i, hi⟩ =
      mapGroupWithProjects (getGroupProjects st (st.groups.map (fun g => g.id)))
        (mapGroupWithUsers (st.groups.get ⟨i, hg⟩)
          (getAllUsersByGroups st (st.groups.map (fun g => g.id)))
          (accountGetAllWithId st
            ((getAllUsersByGroups st (st.groups.map (fun g => g.id))).map
              (fun r => r.userId)))) := by
    simp [getAll, List.getElem_map]
  have hgrmem : st.groups.get ⟨i, hg⟩ ∈ st.groups := List.get_mem _ _ _
  rw [hget]
  refine ⟨rfl, rfl, ?_, ?_⟩
  · exact mapGroupWithProjects_exact st (st.groups.get ⟨i, hg⟩) hgrmem _ rfl
  · intro um
    exact mem_mapGroupWithUsers_users st (st.groups.get ⟨i, hg⟩) hgrmem hU um



/-- Store fixture for the C7 witness: two groups with disjoint members and
projects. -/
def exStC7 : Stores :=
  { groups := [{ id := 1, name := "devs", rootRole := none },
               { id := 2, name := "ops", rootRole := none }],
    groupUsers := [{ groupId := 1, userId := 1, joinedAt := 10, createdBy := some "x" },
                   { groupId := 2, userId := 2, joinedAt := 11, createdBy := some "y" }],
    groupProjects := [{ groupId := 1, project := "p1" }, { groupId := 2, project := "p2" }],
    groupRoles := [], accounts := [⟨1, "A"⟩, ⟨2, "B"⟩], events := [], nextId := 3 }

/-- Witness for C7 on the two-group store: the conclusion holds with the row
uniqueness hypothesis discharged by computation. -/
theorem getAll_exact_witness :
    (getAll exStC7).length = exStC7.groups.length ∧
    (∀ i (hi : i < (getAll exStC7).length) (hg : i < exStC7.groups.length),
      ((getAll exStC7).get ⟨i, hi⟩).id = (exStC7.groups.get ⟨i, hg⟩).id ∧
      ((getAll exStC7).get ⟨i, hi⟩).name = (exStC7.groups.get ⟨i, hg⟩).name ∧
      ((getAll exStC7).get ⟨i, hi⟩).projects =
        (exStC7.groupProjects.filter (fun p => p.groupId == (exStC7.groups.get ⟨i, hg⟩).id)).map
          (fun p => p.project) ∧
      (∀ um, um ∈ ((getAll exStC7).get ⟨i, hi⟩).users ↔
        ∃ acct ∈ exStC7.accounts, ∃ row ∈ exStC7.groupUsers,
          row.groupId = (exStC7.groups.get ⟨i, hg⟩).id ∧ row.userId = acct.id ∧
          um = { user := acct, joinedAt := row.joinedAt, createdBy := row.createdBy })) :=
  getAll_exact exStC7 (by decide)

/-- Helper for C2: removing from a list exactly the rows the list itself
contributes to a sub-filter is the same as filtering by the negated
predicate. -/
theorem filter_not_contains_filter (l : List IGroupUser) (p : IGroupUser → Bool) :
    l.filter (fun r => !((l.filter p).contains r)) = l.filter (fun r => !p r) := by
  apply List.filter_congr
  intro r hr
  have hc : (l.filter p).contains r = p r := by
    cases hp : p r with
    | true => simp [List.elem_iff, List.mem_filter, hr, hp]
    | false => simp [List.elem_iff, List.mem_filter, hp]
  rw [hc]

/-- Helper for C2: under distinct group ids, looking a member group up by
its own id finds exactly it. -/
theorem find?_group_self (G : List IGroup) (hids : (G.map (fun g => g.id)).Nodup)
    (g : IGroup) (hg : g ∈ G) :
    G.find? (fun g2 => g2.id == g.id) = some g := by
  induction G with
  | nil => cases hg
  | cons a t ih =>
    rw [List.map_cons, List.nodup_cons] at hids
    cases hga : a.id == g.id with
    | true =>
      have hfind : List.find? (fun g2 => g2.id == g.id) (a :: t) = some a :=
        List.find?_cons_of_pos t hga
      rw [hfind]
      rcases List.mem_cons.mp hg with hgeq | hgt
      · rw [hgeq]
      · exfalso
        apply hids.1
        rw [beq_iff_eq] at hga
        rw [hga]
        exact List.mem_map.mpr ⟨g, hgt, rfl⟩
    | false =>
      have hfind : List.find? (fun g2 => g2.id == g.id) (a :: t) =
          List.find? (fun g2 => g2.id == g.id) t :=
        List.find?_cons_of_neg t (by simp [hga])
      rw [hfind]
      rcases List.mem_cons.mp hg with hgeq | hgt
      · exfalso
        rw [hgeq] at hga
        simp at hga
      · exact ih hids.2 hgt

/-- Helper for C2: adding a user to no groups leaves the store unchanged. -/
theorem addUserToGroups_nil (st : Stores) (uid : Nat) (cb : Option String)
    (now : Nat) :
    addUserToGroups st uid [] cb now = st := by
  simp [addUserToGroups]

/-- Helper for C2: deleting no membership rows leaves the store unchanged. -/
theorem deleteUsersFromGroup_nil (st : Stores) :
    deleteUsersFromGroup st [] = st := by
  simp [deleteUsersFromGroup]

/-- Helper for C2: the membership table after one `syncExternalGroups` call,
as a single filter of the original rows plus the freshly added ones. -/
theorem sync_groupUsers (st : Stores) (uid : Nat) (L : List String)
    (cb : Option String) (now : Nat) :
    (syncExternalGroups st uid (.arr L) cb now).groupUsers =
    (st.groupUsers ++ (getNewGroupsForExternalUser st uid L).map
        (fun g => ({ groupId := g.id, userId := uid, joinedAt := now,
                     createdBy := cb } : IGroupUser))).filter
      (fun r => !(r.userId == uid && groupGone st.groups L r.groupId)) := by
  have hadd : addUserToGroups st uid
      ((getNewGroupsForExternalUser st uid L).map (fun g => g.id)) cb now =
      { st with groupUsers := st.groupUsers ++
          (getNewGroupsForExternalUser st uid L).map (fun g =>
            ({ groupId := g.id, userId := uid, joinedAt := now,
               createdBy := cb } : IGroupUser)) } := by
    simp [addUserToGroups, List.map_map, Function.comp]
  show (deleteUsersFromGroup
      (addUserToGroups st uid
        ((getNewGroupsForExternalUser st uid L).map (fun g => g.id)) cb now)
      (getOldGroupsForExternalUser
        (addUserToGroups st uid
          ((getNewGroupsForExternalUser st uid L).map (fun g => g.id)) cb now)
        uid L)).groupUsers = _
  rw [hadd]
  simp only [deleteUsersFromGroup, getOldGroupsForExternalUser]
  exact filter_not_contains_filter _ _



/-- C2: `syncExternalGroups` is idempotent under distinct stored group ids:
immediately after a sync with list `L`, a second sync with `L` computes no
group to add the user to, no membership row to delete, and leaves the store
state exactly as the first call left it. -/
theorem syncExternalGroups_idempotent (st : Stores) (uid : Nat) (L : List String)
    (cb cb2 : Option String) (now now2 : Nat)
    (hids : (st.groups.map (fun g => g.id)).Nodup) :
    getNewGroupsForExternalUser (syncExternalGroups st uid (.arr L) cb now) uid L = [] ∧
    getOldGroupsForExternalUser (syncExternalGroups st uid (.arr L) cb now) uid L = [] ∧
    syncExternalGroups (syncExternalGroups st uid (.arr L) cb now) uid (.arr L) cb2 now2 =
      syncExternalGroups st uid (.arr L) cb now := by
  have hgu := sync_groupUsers st uid L cb now
  have hA : getNewGroupsForExternalUser (syncExternalGroups st uid (.arr L) cb now) uid L = [] := by
    show st.groups.filter (fun g => L.contains g.name &&
        !isMember (syncExternalGroups st uid (.arr L) cb now) uid g.id) = []
    rw [List.filter_eq_nil_iff]
    intro g hgmem hcontra
    rw [Bool.and_eq_true] at hcontra
    obtain ⟨hLname, hnotmem⟩ := hcontra
    rw [Bool.not_eq_true'] at hnotmem
    have hLn : g.name ∈ L := List.elem_iff.mp hLname
    have hgone : groupGone st.groups L g.id = false := by
      unfold groupGone
      rw [find?_group_self st.groups hids g hgmem]
      simp [hLn]
    suffices hsuff : isMember (syncExternalGroups st uid (.arr L) cb now) uid g.id = true by
      rw [hsuff] at hnotmem
      cases hnotmem
    unfold isMember
    rw [hgu, List.any_eq_true]
    by_cases hmem : isMember st uid g.id = true
    · obtain ⟨r, hrU, hrb⟩ := List.any_eq_true.mp hmem
      refine ⟨r, ?_, hrb⟩
      rw [List.mem_filter]
      refine ⟨List.mem_append_left _ hrU, ?_⟩
      simp only [Bool.and_eq_true, beq_iff_eq] at hrb
      simp [hrb.1, hrb.2, hgone]
    · have hmem' : isMember st uid g.id = false := by
        revert hmem
        cases isMember st uid g.id <;> simp
      refine ⟨{ groupId := g.id, userId := uid, joinedAt := now, createdBy := cb },
        ?_, by simp⟩
      rw [List.mem_filter]
      constructor
      · apply List.mem_append_right
        rw [List.mem_map]
        refine ⟨g, ?_, rfl⟩
        unfold getNewGroupsForExternalUser
        rw [List.mem_filter]
        exact ⟨hgmem, by simp [hLn, hmem']⟩
      · simp [hgone]
  have hB : getOldGroupsForExternalUser (syncExternalGroups st uid (.arr L) cb now) uid L = [] := by
    show ((syncExternalGroups st uid (.arr L) cb now).groupUsers).filter
        (fun r => r.userId == uid && groupGone st.groups L r.groupId) = []
    rw [hgu, List.filter_eq_nil_iff]
    intro r hr hcontra
    rw [List.mem_filter] at hr
    have h2 := hr.2
    simp only [Bool.not_eq_true'] at h2
    simp [h2] at hcontra
  refine ⟨hA, hB, ?_⟩
  have step1 : addUserToGroups (syncExternalGroups st uid (.arr L) cb now) uid
      ((getNewGroupsForExternalUser (syncExternalGroups st uid (.arr L) cb now) uid L).map
        (fun g => g.id)) cb2 now2 =
      syncExternalGroups st uid (.arr L) cb now := by
    rw [hA]
    simp only [List.map_nil]
    exact addUserToGroups_nil _ _ _ _
  show deleteUsersFromGroup
      (addUserToGroups (syncExternalGroups st uid (.arr L) cb now) uid
        ((getNewGroupsForExternalUser (syncExternalGroups st uid (.arr L) cb now) uid L).map
          (fun g => g.id)) cb2 now2)
      (getOldGroupsForExternalUser
        (addUserToGroups (syncExternalGroups st uid (.arr L) cb now) uid
          ((getNewGroupsForExternalUser (syncExternalGroups st uid (.arr L) cb now) uid L).map
            (fun g => g.id)) cb2 now2) uid L) =
      syncExternalGroups st uid (.arr L) cb now
  rw [step1, hB, deleteUsersFromGroup_nil]

/-- Store fixture for the C2 witness: user 7 is a member of `ops` only, and
the external list implies `devs` only. -/
def exStC2 : Stores :=
  { groups := [⟨1, "devs", none⟩, ⟨2, "ops", none⟩],
    groupUsers := [⟨2, 7, 5, some "x"⟩],
    groupProjects := [], groupRoles := [], accounts := [⟨7, "G"⟩],
    events := [], nextId := 3 }

/-- Witness for C2: after syncing user 7 to external list `[devs]`, a second
sync with the same list adds nothing, removes nothing, and fixes the state. -/
theorem syncExternalGroups_idempotent_witness :
    getNewGroupsForExternalUser
      (syncExternalGroups exStC2 7 (.arr ["devs"]) (some "sso") 30) 7 ["devs"] = [] ∧
    getOldGroupsForExternalUser
      (syncExternalGroups exStC2 7 (.arr ["devs"]) (some "sso") 30) 7 ["devs"] = [] ∧
    syncExternalGroups (syncExternalGroups exStC2 7 (.arr ["devs"]) (some "sso") 30) 7
        (.arr ["devs"]) (some "sso") 31 =
      syncExternalGroups exStC2 7 (.arr ["devs"]) (some "sso") 30 :=
  syncExternalGroups_idempotent exStC2 7 ["devs"] (some "sso") (some "sso") 30 31 (by decide)

end GroupService
